import Mathlib

/-!
Verification of the Miniflux synchronization engine
(src/scripts/models/services/miniflux.ts).

The engine is shallowly embedded: the remote service is a function from
query parameters to a decoded response (or a failure, covering both the
network-level exception swallowed by the pagination loop and a JSON-decode
failure), and the raw HTTP layer used by the mutation commands is a
function from requests to transport outcomes.  The persisted service
configuration is threaded explicitly; the in-place mutation of
`configs.lastId` in the TypeScript source becomes returning an updated
configuration record.
-/

namespace Miniflux

/-- Partial api schema: `Feed` (miniflux.ts lines 23-28).  The nested
`category.title` field is flattened to `category_title`. -/
structure Feed where
  id : Nat
  feed_url : String
  title : String
  category_title : String
deriving DecidableEq

/-- Partial api schema: `Entry` (miniflux.ts lines 34-45).  The `status`
field is one of the strings "unread" | "read" | "removed"; `published_at`
is optional because the mapper guards it with `?? created_at`. -/
structure Entry where
  id : Nat
  status : String
  title : String
  url : String
  published_at : Option String
  created_at : String
  content : String
  author : String
  starred : Bool
  feed : Feed
deriving DecidableEq

/-- Partial api schema: `Entries` (miniflux.ts lines 47-50). -/
structure Entries where
  total : Nat
  entries : List Entry
deriving DecidableEq

/-- Structure `MinifluxConfigs` (miniflux.ts lines 13-20), plus the `importGroups`
flag inherited from `ServiceConfigs`.  `lastId` is the persisted cursor;
it is optional (`lastId?: number`). -/
structure MinifluxConfigs where
  endpoint : String
  apiKeyAuth : Bool
  authKey : String
  fetchLimit : Nat
  lastId : Option Nat
  importGroups : Bool
deriving DecidableEq

/-- The `URLSearchParams` object threaded through `fetchEntries`, with one
field per parameter name the source ever sets (`order`, `direction`,
`status`, `starred`, `limit`, `before_entry_id`, `after_entry_id`).
`set` is modelled as updating a field to `some`, `delete` as resetting it
to `none`. -/
structure QueryParams where
  order : Option String
  direction : Option String
  status : Option String
  starred : Option String
  limit : Option Nat
  before_entry_id : Option Nat
  after_entry_id : Option Nat
deriving DecidableEq

/-- The remote service as seen by `fetchEntries`: one paginated request
(`fetchAPI` + JSON decode) per query.  `Except.error` covers both a
network failure and a decode failure — either lands in the `catch` of the
loop body. -/
def Server : Type := QueryParams → Except Unit Entries

/-- The do-while loop of `fetchEntries` (miniflux.ts lines 101-133).
One call = one iteration: set the cursor parameter, perform the request,
stop on failure or an empty page, otherwise accumulate and continue while
the reported total is at least the page size and the accumulator is still
below the overall cap.  The JS truthiness test `if (continueId)` is
modelled as `continueId.getD 0 ≠ 0` (both `undefined` and `0` are falsy).
Termination is by well-founded recursion on `cap - items.length`: every
continuing iteration appends a non-empty page while the length is below
`cap`. -/
def fetchEntriesGo (server : Server) (cap pageSize : Nat) (fetchNew : Bool)
    (lastId : Nat) (qp : QueryParams) (items : List Entry)
    (continueId : Option Nat) : QueryParams × List Entry :=
  let qp1 : QueryParams :=
    if continueId.getD 0 ≠ 0 then
      { qp with before_entry_id := continueId }
    else if fetchNew then
      { qp with after_entry_id := some lastId }
    else qp
  match server qp1 with
  | Except.error _ => (qp1, items)
  | Except.ok resp =>
    if resp.entries.isEmpty then (qp1, items)
    else
      let items2 := items ++ resp.entries
      let continueId2 : Option Nat :=
        if fetchNew then items2.getLast?.map Entry.id
        else resp.entries.getLast?.map Entry.id
      if h : pageSize ≤ resp.total ∧ items2.length < cap then
        fetchEntriesGo server cap pageSize fetchNew lastId qp1 items2 continueId2
      else (qp1, items2)
termination_by cap - items.length
decreasing_by
  simp only [items2, List.length_append] at h ⊢
  rename_i hne
  have hpos : 0 < resp.entries.length := by
    cases hl : resp.entries with
    | nil => rw [hl] at hne; simp at hne
    | cons a t => simp [hl]
  omega

/-- Function `fetchEntries` (miniflux.ts lines 87-136).  Returns the updated
configuration (line 97 writes `configs.lastId = configs.lastId ?? 0`
unconditionally, in every mode), the final state of the mutated
`queryParams` object, and the accumulated entries. -/
def fetchEntries (server : Server) (configs : MinifluxConfigs)
    (queryParams : QueryParams) (fetchNew : Bool) (fetchLimit : Nat) :
    MinifluxConfigs × QueryParams × List Entry :=
  let lastId := configs.lastId.getD 0
  let configs2 : MinifluxConfigs := { configs with lastId := some lastId }
  let qp : QueryParams := { queryParams with limit := some fetchLimit }
  let r := fetchEntriesGo server configs2.fetchLimit fetchLimit fetchNew lastId qp [] none
  (configs2, r.1, r.2)

/-- The query parameters built at miniflux.ts lines 189-192. -/
def fetchItemsQuery : QueryParams :=
  { order := some "id", direction := some "desc", status := none,
    starred := none, limit := none, before_entry_id := none,
    after_entry_id := none }

/-- The cursor-management slice of `fetchItems` (miniflux.ts lines
185-199): run `fetchEntries` in fetch-new mode; if nothing came back,
return the (already normalized) configuration unchanged, otherwise set
`configs.lastId = items[0].id`. -/
def fetchItemsEntries (server : Server) (configs : MinifluxConfigs) :
    MinifluxConfigs × List Entry :=
  let r := fetchEntries server configs fetchItemsQuery true 125
  match r.2.2 with
  | [] => (r.1, [])
  | e :: es => ({ r.1 with lastId := some e.id }, e :: es)

/-- The query parameters built at miniflux.ts lines 263-267. -/
def syncItemsQuery : QueryParams :=
  { order := some "id", direction := some "desc", status := some "unread",
    starred := none, limit := none, before_entry_id := none,
    after_entry_id := none }

/-- Function `syncItems` (miniflux.ts lines 260-279): two backlog-mode paginated
queries (unread-only, then starred-only) sharing one `URLSearchParams`
object, from which `status` and `before_entry_id` are deleted and
`starred=true` appended between the calls.  The returned `Set`s of id
strings are modelled as lists of `String`. -/
def syncItems (server : Server) (configs : MinifluxConfigs) :
    MinifluxConfigs × List String × List String :=
  let r1 := fetchEntries server configs syncItemsQuery false 125
  let qp2 : QueryParams :=
    { r1.2.1 with status := none, before_entry_id := none,
                  starred := some "true" }
  let r2 := fetchEntries server r1.1 qp2 false 125
  (r2.1, r1.2.2.map (fun e => toString e.id),
   r2.2.2.map (fun e => toString e.id))

/-- One raw HTTP request as assembled by `fetchAPI`: full URL, method and
optional body (the `body` parameter defaults to `null` in the source). -/
structure HttpRequest where
  url : String
  method : String
  body : Option String
deriving DecidableEq

/-- Outcome of one `fetch` call: a completed response with its status
code, or a network-level exception. -/
inductive TransportResult where
  | success (status : Nat)
  | failure
deriving DecidableEq

/-- The raw HTTP layer used by the mutation commands. -/
def Transport : Type := HttpRequest → TransportResult

/-- The single opaque error `APIError()` (miniflux.ts line 52). -/
inductive ServiceError where
  | serviceFailure
deriving DecidableEq

/-- Base-URL normalization in `fetchAPI` (miniflux.ts lines 69-75). -/
def baseUrl (configs : MinifluxConfigs) : String :=
  let b := configs.endpoint
  let b := if b.endsWith "/" then b else b ++ "/"
  if b.endsWith "/v1/" then b else b ++ "v1/"

/-- Function `fetchAPI` (miniflux.ts lines 55-85): build the request, perform it,
and translate any network-level exception into the one opaque
`ServiceFailure` (logged, then re-thrown).  Returns the response status
together with the request that was issued, so that callers' request
traffic is observable. -/
def fetchAPI (transport : Transport) (configs : MinifluxConfigs)
    (endpoint : String) (method : String) (body : Option String) :
    Except ServiceError Nat × HttpRequest :=
  let req : HttpRequest :=
    { url := baseUrl configs ++ endpoint, method := method, body := body }
  match transport req with
  | TransportResult.success s => (Except.ok s, req)
  | TransportResult.failure => (Except.error ServiceError.serviceFailure, req)

/-- The local article representation built by the item mapper
(miniflux.ts lines 213-228).  `date` keeps the raw string chosen by
`published_at ?? created_at` (the `Date` constructor is external);
`fetchedDate` (the wall clock at mapping time) is omitted as external
nondeterminism no claim touches. -/
structure RSSItem where
  source : Nat
  title : String
  link : String
  date : String
  content : String
  snippet : String
  creator : String
  hasRead : Bool
  starred : Bool
  hidden : Bool
  notify : Bool
  serviceRef : Option String
  thumb : Option String
deriving DecidableEq

/-- The slice of `RSSSource` the engine reads: the local id `sid`, the
remote reference id, and the automation rules.  Modelled from the spec:
`SourceRule.applyAll` (the rule evaluator, external to the sources under
verification) mutates an Item in place, so a rule list is modelled as its
net effect, an arbitrary item transform. -/
structure RSSSource where
  sid : Nat
  url : String
  name : String
  serviceRef : Option String
  rules : Option (RSSItem → RSSItem)

/-- A fire-and-forget invocation of one of the item-addressed service
hooks, as dispatched at miniflux.ts lines 246 and 249. -/
inductive Command where
  | markRead (item : RSSItem)
  | markUnread (item : RSSItem)
  | star (item : RSSItem)
  | unstar (item : RSSItem)
deriving DecidableEq

/-- The JSON body `{"entry_ids": [...], "status": ...}` used by the
mark-read/mark-unread/bulk commands. -/
def entryIdsBody (refs : String) (status : String) : String :=
  "\x7b \"entry_ids\": [" ++ refs ++ "], \"status\": \"" ++ status ++ "\" \x7d"

/-- Command `markRead` (miniflux.ts lines 281-301): no-op when `serviceRef` is
falsy (absent or empty); otherwise one PUT to `entries`, raising
`ServiceFailure` whenever the transport fails or the status is not
204. -/
def markRead (transport : Transport) (configs : MinifluxConfigs)
    (item : RSSItem) : Except ServiceError Unit × List HttpRequest :=
  if item.serviceRef.getD "" = "" then (Except.ok (), [])
  else
    let ref := item.serviceRef.getD ""
    let r := fetchAPI transport configs "entries" "PUT"
      (some (entryIdsBody ref "read"))
    match r.1 with
    | Except.error e => (Except.error e, [r.2])
    | Except.ok s =>
      if s ≠ 204 then (Except.error ServiceError.serviceFailure, [r.2])
      else (Except.ok (), [r.2])

/-- Command `markUnread` (miniflux.ts lines 303-318): like `markRead` but the
response status is never inspected; only a transport failure (re-thrown
by `fetchAPI`) propagates. -/
def markUnread (transport : Transport) (configs : MinifluxConfigs)
    (item : RSSItem) : Except ServiceError Unit × List HttpRequest :=
  if item.serviceRef.getD "" = "" then (Except.ok (), [])
  else
    let ref := item.serviceRef.getD ""
    let r := fetchAPI transport configs "entries" "PUT"
      (some (entryIdsBody ref "unread"))
    match r.1 with
    | Except.error e => (Except.error e, [r.2])
    | Except.ok _ => (Except.ok (), [r.2])

/-- Command `star` (miniflux.ts lines 366-376): one bodiless PUT to
`entries/{serviceRef}/bookmark`; the response is never inspected. -/
def star (transport : Transport) (configs : MinifluxConfigs)
    (item : RSSItem) : Except ServiceError Unit × List HttpRequest :=
  if item.serviceRef.getD "" = "" then (Except.ok (), [])
  else
    let ref := item.serviceRef.getD ""
    let r := fetchAPI transport configs ("entries/" ++ ref ++ "/bookmark")
      "PUT" none
    match r.1 with
    | Except.error e => (Except.error e, [r.2])
    | Except.ok _ => (Except.ok (), [r.2])

/-- Command `unstar` (miniflux.ts lines 378-388): textually the same request as
`star` — one bodiless PUT to `entries/{serviceRef}/bookmark`. -/
def unstar (transport : Transport) (configs : MinifluxConfigs)
    (item : RSSItem) : Except ServiceError Unit × List HttpRequest :=
  if item.serviceRef.getD "" = "" then (Except.ok (), [])
  else
    let ref := item.serviceRef.getD ""
    let r := fetchAPI transport configs ("entries/" ++ ref ++ "/bookmark")
      "PUT" none
    match r.1 with
    | Except.error e => (Except.error e, [r.2])
    | Except.ok _ => (Except.ok (), [r.2])

/-- One row of the local item store as consulted by `markAllRead`: the
owning source id, the read flag, the remote reference id and the item
date (a timestamp, so that the lovefield `lte`/`gte` predicates become
integer comparisons).  The store itself (an external lovefield database)
is modelled as a list of such rows. -/
structure DBItem where
  source : Nat
  hasRead : Bool
  serviceRef : Option String
  date : Int
deriving DecidableEq

/-- The local-store query of `markAllRead` (miniflux.ts lines 334-346):
select `serviceRef` of items whose source is in `sids`, that are unread,
whose `serviceRef` is not null, and that lie on the requested side of the
date boundary (inclusive). -/
def markAllReadQueryRefs (dbItems : List DBItem) (sids : List Nat)
    (d : Int) (before : Bool) : List String :=
  (dbItems.filter (fun r =>
      sids.contains r.source && (r.hasRead == false) && r.serviceRef.isSome &&
      (if before then decide (r.date ≤ d) else decide (d ≤ r.date)))).map
    (fun r => r.serviceRef.getD "")

/-- Command `markAllRead` (miniflux.ts lines 329-364).  With a date boundary: one
bulk PUT to `entries` whose body lists the refs selected by the local
query (the JS template `${refs}` joins the array with commas).  Without
one: one `feeds/{serviceRef}/mark-all-as-read` PUT per source id, issued
concurrently via `Promise.all`, which rejects if any of them fails; a
missing source or ref renders as the string `undefined` in the path. -/
def markAllRead (transport : Transport) (configs : MinifluxConfigs)
    (dbItems : List DBItem) (sources : Nat → Option RSSSource)
    (sids : List Nat) (date : Option Int) (before : Bool) :
    Except ServiceError Unit × List HttpRequest :=
  match date with
  | some d =>
    let refs := markAllReadQueryRefs dbItems sids d before
    let body := entryIdsBody (String.intercalate "," refs) "read"
    let r := fetchAPI transport configs "entries" "PUT" (some body)
    match r.1 with
    | Except.error e => (Except.error e, [r.2])
    | Except.ok _ => (Except.ok (), [r.2])
  | none =>
    let rs := sids.map (fun sid =>
      fetchAPI transport configs
        ("feeds/" ++ ((sources sid).bind RSSSource.serviceRef).getD "undefined"
          ++ "/mark-all-as-read") "PUT" none)
    (if rs.all (fun r => r.1.toBool) then Except.ok ()
     else Except.error ServiceError.serviceFailure,
     rs.map (fun r => r.2))

/-- The item mapper body of `fetchItems` (miniflux.ts lines 210-254) for
one entry with its resolved source.  `htmlDecode` (entity decoding, from
utils) and `extractThumb` (the DOMParser-based thumbnail extraction from
the content and the link's origin, lines 231-241) are external
collaborators passed as functions.  If the source carries rules, they are
applied and, when the read or starred flag differs from what the remote
entry reported, the corresponding hook is dispatched fire-and-forget:
`markRead` for a read-flag change, `markUnread` for a starred-flag
change (lines 243-251). -/
def mapEntry (htmlDecode : String → String)
    (extractThumb : String → String → Option String)
    (source : RSSSource) (item : Entry) : RSSItem × List Command :=
  let parsedItem : RSSItem :=
    { source := source.sid
      title := item.title
      link := item.url
      date := item.published_at.getD item.created_at
      content := item.content
      snippet := (htmlDecode item.content).trim
      creator := item.author
      hasRead := item.status == "read"
      starred := item.starred
      hidden := false
      notify := false
      serviceRef := some (toString item.id)
      thumb := extractThumb item.content item.url }
  match source.rules with
  | none => (parsedItem, [])
  | some rules =>
    let parsedItem2 := rules parsedItem
    let cmds : List Command :=
      (if (item.status == "read") != parsedItem2.hasRead
       then [Command.markRead parsedItem2] else []) ++
      (if item.starred != parsedItem2.starred
       then [Command.markUnread parsedItem2] else [])
    (parsedItem2, cmds)

/-- The `sourceMap` of `fetchItems` (miniflux.ts lines 202-207): sources
with a truthy `serviceRef` keyed by it, later insertions overwriting
earlier ones. -/
def sourceMapLookup (sources : List RSSSource) (ref : String) :
    Option RSSSource :=
  (sources.filter (fun s => s.serviceRef.getD "" != "")).foldl
    (fun acc s => if s.serviceRef = some ref then some s else acc) none

/-- Function `fetchItems` (miniflux.ts lines 185-257) assembled from its cursor
slice and the per-entry mapper.  An entry whose feed id resolves to no
source makes the original crash on `source.sid` (there is no guard);
that propagating TypeError is the `Except.error` case. -/
def fetchItems (server : Server) (htmlDecode : String → String)
    (extractThumb : String → String → Option String)
    (sources : List RSSSource) (configs : MinifluxConfigs) :
    Except Unit (MinifluxConfigs × List RSSItem × List Command) :=
  let r := fetchItemsEntries server configs
  match r.2.mapM (fun it =>
      (sourceMapLookup sources (toString it.feed.id)).map
        (fun s => mapEntry htmlDecode extractThumb s it)) with
  | none => Except.error ()
  | some pairs =>
    Except.ok (r.1, pairs.map Prod.fst, (pairs.map Prod.snd).flatten)

/-! Honesty assumptions on the remote service, used as hypotheses: a
Miniflux server honors the cursor query parameters, returns pages sorted
by id descending when asked for `order=id`, `direction=desc`, assigns
positive entry ids, and returns at most `limit` entries per page. -/

/-- Every entry of a page requested with `before_entry_id=b` has id
strictly below `b`. -/
def HonorsBefore (server : Server) : Prop :=
  ∀ qp r, server qp = Except.ok r → ∀ e ∈ r.entries,
    ∀ b, qp.before_entry_id = some b → e.id < b

/-- Every entry of a page requested with `after_entry_id=a` has id
strictly above `a`. -/
def HonorsAfter (server : Server) : Prop :=
  ∀ qp r, server qp = Except.ok r → ∀ e ∈ r.entries,
    ∀ a, qp.after_entry_id = some a → a < e.id

/-- Every returned page is sorted by id, newest (largest) first. -/
def PagesSortedDesc (server : Server) : Prop :=
  ∀ qp r, server qp = Except.ok r →
    List.Pairwise (fun a b => b.id < a.id) r.entries

/-- Entry ids are positive (Miniflux ids are positive integers). -/
def PagesPositive (server : Server) : Prop :=
  ∀ qp r, server qp = Except.ok r → ∀ e ∈ r.entries, 0 < e.id

/-- Every returned page carries at most `n` entries. -/
def PagesAtMost (server : Server) (n : Nat) : Prop :=
  ∀ qp r, server qp = Except.ok r → r.entries.length ≤ n

/-- Whether an entry satisfies the cursor constraints of a query. -/
def matchesQuery (qp : QueryParams) (e : Entry) : Bool :=
  (match qp.before_entry_id with
   | some b => decide (e.id < b)
   | none => true) &&
  (match qp.after_entry_id with
   | some a => decide (a < e.id)
   | none => true)

/-- A concrete finite remote dataset served page by page: filter by the
cursor parameters, report the matching total, return the first `limit`
matches.  Used to instantiate the honesty hypotheses in witnesses. -/
def demoServer (dataset : List Entry) : Server := fun qp =>
  let l := dataset.filter (matchesQuery qp)
  Except.ok { total := l.length, entries := l.take (qp.limit.getD 0) }

theorem demoServer_mem {dataset : List Entry} {qp : QueryParams}
    {r : Entries} (h : demoServer dataset qp = Except.ok r) {e : Entry}
    (he : e ∈ r.entries) : e ∈ dataset ∧ matchesQuery qp e = true := by
  unfold demoServer at h
  injection h with h
  subst h
  have h1 : e ∈ dataset.filter (matchesQuery qp) :=
    List.take_subset _ _ he
  exact ⟨(List.mem_filter.1 h1).1, (List.mem_filter.1 h1).2⟩

theorem demoServer_honorsBefore (dataset : List Entry) :
    HonorsBefore (demoServer dataset) := by
  intro qp r h e he b hb
  have hm := (demoServer_mem h he).2
  simp only [matchesQuery, hb, Bool.and_eq_true, decide_eq_true_eq] at hm
  exact hm.1

theorem demoServer_honorsAfter (dataset : List Entry) :
    HonorsAfter (demoServer dataset) := by
  intro qp r h e he a ha
  have hm := (demoServer_mem h he).2
  simp only [matchesQuery, ha, Bool.and_eq_true, decide_eq_true_eq] at hm
  exact hm.2

theorem demoServer_sorted {dataset : List Entry}
    (hd : List.Pairwise (fun a b => b.id < a.id) dataset) :
    PagesSortedDesc (demoServer dataset) := by
  intro qp r h
  unfold demoServer at h
  injection h with h
  subst h
  exact ((hd.filter _).sublist (List.take_sublist _ _))

theorem demoServer_positive {dataset : List Entry}
    (hd : ∀ e ∈ dataset, 0 < e.id) :
    PagesPositive (demoServer dataset) := by
  intro qp r h e he
  exact hd e (demoServer_mem h he).1

theorem demoServer_pagesAtMost {dataset : List Entry} {n : Nat}
    (hd : dataset.length ≤ n) : PagesAtMost (demoServer dataset) n := by
  intro qp r h
  unfold demoServer at h
  injection h with h
  subst h
  calc (List.take (qp.limit.getD 0) (dataset.filter (matchesQuery qp))).length
      ≤ (dataset.filter (matchesQuery qp)).length :=
        (List.take_sublist _ _).length_le
    _ ≤ dataset.length := (List.filter_sublist _).length_le
    _ ≤ n := hd

/-- A server whose every request fails at the network level. -/
def emptyServer : Server := fun _ => Except.error ()

/-- A transport whose every call raises a network-level exception. -/
def failTransport : Transport := fun _ => TransportResult.failure

/-- A transport answering every call with status 204 No Content. -/
def okTransport : Transport := fun _ => TransportResult.success 204

def demoFeed : Feed :=
  { id := 1, feed_url := "https://site.example/feed", title := "demo",
    category_title := "cat" }

def demoEntry (i : Nat) : Entry :=
  { id := i, status := "unread", title := "t", url := "https://site.example/post",
    published_at := none, created_at := "2024-01-01", content := "c",
    author := "a", starred := false, feed := demoFeed }

def demoDataset : List Entry := [demoEntry 5, demoEntry 3]

def demoConfigs : MinifluxConfigs :=
  { endpoint := "https://mf.example", apiKeyAuth := true, authKey := "k",
    fetchLimit := 1, lastId := some 2, importGroups := false }

/-- A configuration whose persisted cursor has never been set. -/
def freshConfigs : MinifluxConfigs :=
  { endpoint := "https://mf.example", apiKeyAuth := true, authKey := "k",
    fetchLimit := 1, lastId := none, importGroups := false }

def demoRSSItem : RSSItem :=
  { source := 7, title := "t", link := "https://site.example/post",
    date := "2024-01-01", content := "c", snippet := "c", creator := "a",
    hasRead := false, starred := false, hidden := false, notify := false,
    serviceRef := some "42", thumb := none }

/-- Appending a page of strictly smaller ids to a descending accumulator
keeps it descending. -/
theorem pairwise_append_page {items entries : List Entry} {c : Nat}
    (hpw : List.Pairwise (fun a b => b.id < a.id) items)
    (hepw : List.Pairwise (fun a b => b.id < a.id) entries)
    (hub : ∀ e ∈ items, c ≤ e.id)
    (hlt : ∀ e ∈ entries, e.id < c) :
    List.Pairwise (fun a b => b.id < a.id) (items ++ entries) :=
  List.pairwise_append.2
    ⟨hpw, hepw, fun a ha b hb => lt_of_lt_of_le (hlt b hb) (hub a ha)⟩

/-- In a descending list the last element has the least id. -/
theorem getLast?_min_of_pairwise :
    ∀ {l : List Entry}, List.Pairwise (fun a b => b.id < a.id) l →
      ∀ {x : Entry}, l.getLast? = some x → ∀ e ∈ l, x.id ≤ e.id := by
  intro l
  induction l with
  | nil => intro _ x hx; cases hx
  | cons a t ih =>
    intro hpw x hx e he
    cases t with
    | nil =>
      simp only [List.getLast?_singleton, Option.some.injEq] at hx
      subst hx
      simp only [List.mem_singleton] at he
      subst he
      exact le_refl _
    | cons b t2 =>
      rw [List.getLast?_cons_cons] at hx
      have hxm : x ∈ b :: t2 := by
        have h1 := List.getLast?_eq_getLast_of_ne_nil
          (l := b :: t2) (List.cons_ne_nil _ _)
        rw [h1] at hx
        injection hx with hx
        rw [← hx]
        exact List.getLast_mem _
      rcases List.mem_cons.1 he with rfl | he2
      · exact le_of_lt ((List.rel_of_pairwise_cons hpw) hxm)
      · exact ih (List.Pairwise.of_cons hpw) hx e he2

/-- Each continuing iteration of the loop appends at most one page while
the accumulator is below the cap, so the final accumulator stays within
one page of the cap. -/
theorem fetchEntriesGo_length_le (server : Server) (cap pageSize : Nat)
    (fetchNew : Bool) (lastId : Nat) (hp : PagesAtMost server pageSize) :
    ∀ qp items continueId, items.length ≤ cap →
      (fetchEntriesGo server cap pageSize fetchNew lastId
        qp items continueId).2.length ≤ cap + pageSize := by
  intro qp items continueId
  induction qp, items, continueId
    using fetchEntriesGo.induct server cap pageSize fetchNew lastId with
  | case1 qp items cid qp1 a herr =>
    intro hlen
    rw [fetchEntriesGo]
    simp only [qp1, dite_eq_ite] at herr
    simp only [herr]
    omega
  | case2 qp items cid qp1 resp hok hemp =>
    intro hlen
    rw [fetchEntriesGo]
    simp only [qp1, dite_eq_ite] at hok
    simp only [hok, hemp, if_true]
    omega
  | case3 qp items cid qp1 resp hok hemp items2 cid2 hcond ih =>
    intro hlen
    rw [fetchEntriesGo]
    simp only [qp1, dite_eq_ite] at hok
    simp only [qp1, items2, cid2, dite_eq_ite] at hcond ih
    simp only [hok, hemp, if_false, dif_pos hcond]
    exact ih (le_of_lt hcond.2)
  | case4 qp items cid qp1 resp hok hemp items2 hcond =>
    intro hlen
    rw [fetchEntriesGo]
    simp only [qp1, dite_eq_ite] at hok
    simp only [qp1, items2, dite_eq_ite] at hcond
    have hple := hp _ _ hok
    simp only [hok]
    rw [if_neg hemp, dif_neg hcond]
    show (items ++ resp.entries).length ≤ cap + pageSize
    simp only [List.length_append]
    omega

/-- Loop invariant of the pagination walk against an honest server: the
accumulator stays sorted by id descending and only grows.  The invariant
carried through the recursion is that the page cursor, when set, is a
positive lower bound for every accumulated id, and that an unset page
cursor means nothing has been accumulated yet. -/
theorem fetchEntriesGo_sorted (server : Server) (cap pageSize : Nat)
    (fetchNew : Bool) (lastId : Nat)
    (hB : HonorsBefore server) (hS : PagesSortedDesc server)
    (hP : PagesPositive server) :
    ∀ qp items continueId,
      List.Pairwise (fun a b => b.id < a.id) items →
      (∀ e ∈ items, 0 < e.id) →
      (continueId = none → items = []) →
      (∀ c, continueId = some c → 0 < c ∧ ∀ e ∈ items, c ≤ e.id) →
      List.Pairwise (fun a b => b.id < a.id)
        (fetchEntriesGo server cap pageSize fetchNew lastId
          qp items continueId).2 ∧
      ∃ t, (fetchEntriesGo server cap pageSize fetchNew lastId
          qp items continueId).2 = items ++ t := by
  intro qp items continueId
  induction qp, items, continueId
    using fetchEntriesGo.induct server cap pageSize fetchNew lastId with
  | case1 qp items cid qp1 a herr =>
    intro hpw hpos hcn hcs
    rw [fetchEntriesGo]
    simp only [qp1, dite_eq_ite] at herr
    simp only [herr]
    exact ⟨hpw, [], (List.append_nil items).symm⟩
  | case2 qp items cid qp1 resp hok hemp =>
    intro hpw hpos hcn hcs
    rw [fetchEntriesGo]
    simp only [qp1, dite_eq_ite] at hok
    simp only [hok, hemp, if_true]
    exact ⟨hpw, [], (List.append_nil items).symm⟩
  | case3 qp items cid qp1 resp hok hemp items2 cid2 hcond ih =>
    intro hpw hpos hcn hcs
    rw [fetchEntriesGo]
    simp only [qp1, dite_eq_ite] at hok
    simp only [qp1, items2, cid2, dite_eq_ite] at hcond ih
    simp only [hok]
    rw [if_neg hemp, dif_pos hcond]
    have hepw := hS _ _ hok
    have hepos := hP _ _ hok
    have hne : resp.entries ≠ [] := by
      intro h0
      rw [h0] at hemp
      exact hemp rfl
    obtain ⟨x, hx⟩ : ∃ x, resp.entries.getLast? = some x :=
      ⟨_, List.getLast?_eq_getLast_of_ne_nil hne⟩
    have hxmem : x ∈ resp.entries := by
      rw [List.getLast?_eq_getLast_of_ne_nil hne] at hx
      injection hx with hx
      rw [← hx]
      exact List.getLast_mem _
    have hxmin := getLast?_min_of_pairwise hepw hx
    have hgl : (items ++ resp.entries).getLast? = some x := by
      rw [List.getLast?_append_of_ne_nil _ hne]
      exact hx
    have hcid2 :
        (if fetchNew then (items ++ resp.entries).getLast?.map Entry.id
         else resp.entries.getLast?.map Entry.id) = some x.id := by
      simp only [hgl, hx, Option.map_some', ite_self]
    cases cid with
    | none =>
      have hitems := hcn rfl
      subst hitems
      have inv1 : List.Pairwise (fun a b => b.id < a.id)
          ([] ++ resp.entries) := by simpa using hepw
      have inv2 : ∀ e ∈ ([] ++ resp.entries), 0 < e.id := by
        simpa using hepos
      obtain ⟨ihpw, t', ht'⟩ := ih inv1 inv2
        (by intro h0; rw [hcid2] at h0; simp at h0)
        (by
          intro c2 hc2
          rw [hcid2] at hc2
          injection hc2 with hc2
          subst hc2
          refine ⟨hepos x hxmem, ?_⟩
          simpa using hxmin)
      exact ⟨ihpw, resp.entries ++ t', by rw [ht', List.append_assoc]⟩
    | some c =>
      obtain ⟨hcpos, hub⟩ := hcs c rfl
      have hcne : ((some c : Option Nat).getD 0 ≠ 0) := by
        simpa using Nat.pos_iff_ne_zero.1 hcpos
      rw [if_pos hcne] at hok
      have hblt : ∀ e ∈ resp.entries, e.id < c := fun e he =>
        hB _ _ hok e he c rfl
      have inv1 := pairwise_append_page hpw hepw hub hblt
      have inv2 : ∀ e ∈ (items ++ resp.entries), 0 < e.id := by
        intro e he
        rcases List.mem_append.1 he with h1 | h1
        · exact hpos e h1
        · exact hepos e h1
      obtain ⟨ihpw, t', ht'⟩ := ih inv1 inv2
        (by intro h0; rw [hcid2] at h0; simp at h0)
        (by
          intro c2 hc2
          rw [hcid2] at hc2
          injection hc2 with hc2
          subst hc2
          refine ⟨hepos x hxmem, ?_⟩
          intro e he
          rcases List.mem_append.1 he with h1 | h1
          · exact le_trans (le_of_lt (hblt x hxmem)) (hub e h1)
          · exact hxmin e h1)
      exact ⟨ihpw, resp.entries ++ t', by rw [ht', List.append_assoc]⟩
  | case4 qp items cid qp1 resp hok hemp items2 hcond =>
    intro hpw hpos hcn hcs
    rw [fetchEntriesGo]
    simp only [qp1, dite_eq_ite] at hok
    simp only [qp1, items2, dite_eq_ite] at hcond
    simp only [hok]
    rw [if_neg hemp, dif_neg hcond]
    have hepw := hS _ _ hok
    have hepos := hP _ _ hok
    refine ⟨?_, resp.entries, rfl⟩
    show List.Pairwise (fun a b => b.id < a.id) (items ++ resp.entries)
    cases cid with
    | none =>
      have hitems := hcn rfl
      subst hitems
      simpa using hepw
    | some c =>
      obtain ⟨hcpos, hub⟩ := hcs c rfl
      have hcne : ((some c : Option Nat).getD 0 ≠ 0) := by
        simpa using Nat.pos_iff_ne_zero.1 hcpos
      rw [if_pos hcne] at hok
      have hblt : ∀ e ∈ resp.entries, e.id < c := fun e he =>
        hB _ _ hok e he c rfl
      exact pairwise_append_page hpw hepw hub hblt

/-- In fetch-new mode the `after_entry_id=lastId` parameter is set on the
first iteration and never removed, so against a server honoring it every
accumulated entry has id above `lastId`. -/
theorem fetchEntriesGo_after (server : Server) (cap pageSize : Nat)
    (fetchNew : Bool) (lastId : Nat) (hA : HonorsAfter server)
    (hfn : fetchNew = true) :
    ∀ qp items continueId,
      (∀ e ∈ items, lastId < e.id) →
      (continueId.getD 0 ≠ 0 → qp.after_entry_id = some lastId) →
      ∀ e ∈ (fetchEntriesGo server cap pageSize fetchNew lastId
          qp items continueId).2, lastId < e.id := by
  intro qp items continueId
  induction qp, items, continueId
    using fetchEntriesGo.induct server cap pageSize fetchNew lastId with
  | case1 qp items cid qp1 a herr =>
    intro hbound hqp
    rw [fetchEntriesGo]
    simp only [qp1, dite_eq_ite] at herr
    simp only [herr]
    exact hbound
  | case2 qp items cid qp1 resp hok hemp =>
    intro hbound hqp
    rw [fetchEntriesGo]
    simp only [qp1, dite_eq_ite] at hok
    simp only [hok, hemp, if_true]
    exact hbound
  | case3 qp items cid qp1 resp hok hemp items2 cid2 hcond ih =>
    intro hbound hqp
    have hq1 : qp1.after_entry_id = some lastId := by
      simp only [qp1, dite_eq_ite]
      by_cases hc : cid.getD 0 ≠ 0
      · rw [if_pos hc]
        exact hqp hc
      · rw [if_neg hc, if_pos hfn]
    rw [fetchEntriesGo]
    simp only [qp1, dite_eq_ite] at hok hq1
    simp only [qp1, items2, cid2, dite_eq_ite] at hcond ih
    simp only [hok]
    rw [if_neg hemp, dif_pos hcond]
    have hlt : ∀ e ∈ resp.entries, lastId < e.id := fun e he =>
      hA _ _ hok e he lastId hq1
    refine ih ?_ ?_
    · intro e he
      rcases List.mem_append.1 he with h1 | h1
      · exact hbound e h1
      · exact hlt e h1
    · intro _
      exact hq1
  | case4 qp items cid qp1 resp hok hemp items2 hcond =>
    intro hbound hqp
    have hq1 : qp1.after_entry_id = some lastId := by
      simp only [qp1, dite_eq_ite]
      by_cases hc : cid.getD 0 ≠ 0
      · rw [if_pos hc]
        exact hqp hc
      · rw [if_neg hc, if_pos hfn]
    rw [fetchEntriesGo]
    simp only [qp1, dite_eq_ite] at hok hq1
    simp only [qp1, items2, dite_eq_ite] at hcond
    simp only [hok]
    rw [if_neg hemp, dif_neg hcond]
    have hlt : ∀ e ∈ resp.entries, lastId < e.id := fun e he =>
      hA _ _ hok e he lastId hq1
    intro e he
    rcases List.mem_append.1 he with h1 | h1
    · exact hbound e h1
    · exact hlt e h1


/-- Claim C1: for every finite remote dataset (pages of at most
`pageSize` entries, pages before a cursor holding only smaller ids),
`fetchEntries` terminates — witnessed by `fetchEntriesGo` being a total
function, defined by well-founded recursion — and the returned list's
length is bounded by `max` of the configured overall cap and one full
page beyond the cap. -/
theorem fetchEntries_terminates_within_cap_plus_page (server : Server)
    (configs : MinifluxConfigs) (queryParams : QueryParams)
    (fetchNew : Bool) (pageSize : Nat)
    (hpage : PagesAtMost server pageSize) (hbefore : HonorsBefore server) :
    (fetchEntries server configs queryParams fetchNew pageSize).2.2.length ≤
      max configs.fetchLimit (configs.fetchLimit + pageSize) := by
  have h := fetchEntriesGo_length_le server configs.fetchLimit pageSize
    fetchNew (configs.lastId.getD 0) hpage
    { queryParams with limit := some pageSize } [] none (Nat.zero_le _)
  exact le_trans h (le_max_right _ _)

/-- Witness for C1 at a concrete two-entry dataset with cap 1 and page
size 2: the hypotheses hold and the fetched list stays within the
bound. -/
theorem fetchEntries_terminates_within_cap_plus_page_witness :
    PagesAtMost (demoServer demoDataset) 2 ∧
    HonorsBefore (demoServer demoDataset) ∧
    (fetchEntries (demoServer demoDataset) demoConfigs fetchItemsQuery
        false 2).2.2.length ≤
      max demoConfigs.fetchLimit (demoConfigs.fetchLimit + 2) :=
  ⟨demoServer_pagesAtMost (by decide), demoServer_honorsBefore _,
   fetchEntries_terminates_within_cap_plus_page (demoServer demoDataset)
     demoConfigs fetchItemsQuery false 2
     (demoServer_pagesAtMost (by decide)) (demoServer_honorsBefore _)⟩

/-- Claim C3: a fetch-new call against a server honoring the cursor
query parameters returns no entry with id at or below the cursor value
current before the call (an unset cursor is normalized to 0 by line
97). -/
theorem fetchEntries_fetchNew_above_cursor (server : Server)
    (configs : MinifluxConfigs) (queryParams : QueryParams)
    (pageSize : Nat) (hA : HonorsAfter server) :
    ∀ e ∈ (fetchEntries server configs queryParams true pageSize).2.2,
      configs.lastId.getD 0 < e.id := by
  have h := fetchEntriesGo_after server configs.fetchLimit pageSize true
    (configs.lastId.getD 0) hA rfl
    { queryParams with limit := some pageSize } [] none
    (by intro e he; cases he)
    (by intro hc; exact (hc rfl).elim)
  exact h

/-- Witness for C3: against the demo dataset, every entry fetched in
fetch-new mode has id above the persisted cursor 2. -/
theorem fetchEntries_fetchNew_above_cursor_witness :
    HonorsAfter (demoServer demoDataset) ∧
    ∀ e ∈ (fetchEntries (demoServer demoDataset) demoConfigs
        fetchItemsQuery true 125).2.2, demoConfigs.lastId.getD 0 < e.id :=
  ⟨demoServer_honorsAfter _,
   fetchEntries_fetchNew_above_cursor (demoServer demoDataset) demoConfigs
     fetchItemsQuery 125 (demoServer_honorsAfter _)⟩

/-- Claim C6 (amended): `syncItems` does read and write `configs.lastId`
— `fetchEntries` executes `configs.lastId = configs.lastId ?? 0` in
every mode — but it never changes the numeric value of a cursor that was
already set: after `syncItems` the cursor is exactly `some` of its prior
value, with an unset cursor initialized to 0. -/
theorem syncItems_preserves_cursor_value (server : Server)
    (configs : MinifluxConfigs) :
    (syncItems server configs).1.lastId = some (configs.lastId.getD 0) :=
  rfl

/-- Counterexample to C6 as stated: running the backlog-mode `syncItems`
on a configuration whose cursor was never set writes the cursor (from
unset to `some 0`), so `configs.lastId` is not untouched by operations
outside the fetch-new path. -/
theorem syncItems_initializes_unset_cursor :
    freshConfigs.lastId = none ∧
    (syncItems emptyServer freshConfigs).1.lastId = some 0 :=
  ⟨rfl, rfl⟩

/-- Claim C2 (amended): after a fetch-new cycle with N > 0 new entries
the persisted cursor equals the maximum remote id among them (the head
of the accumulated list, which an honest server keeps sorted newest
first); after a cycle with zero new entries the cursor keeps its prior
numeric value when one was set, and is initialized to 0 when it was
previously unset (line 97). -/
theorem fetchItemsEntries_cursor_max_or_init (server : Server)
    (configs : MinifluxConfigs) (hB : HonorsBefore server)
    (hS : PagesSortedDesc server) (hP : PagesPositive server) :
    ((fetchItemsEntries server configs).2 = [] →
      (fetchItemsEntries server configs).1.lastId =
        some (configs.lastId.getD 0)) ∧
    (∀ e0 es, (fetchItemsEntries server configs).2 = e0 :: es →
      (fetchItemsEntries server configs).1.lastId = some e0.id ∧
      ∀ e ∈ (fetchItemsEntries server configs).2, e.id ≤ e0.id) := by
  have hsor := fetchEntriesGo_sorted server configs.fetchLimit 125 true
    (configs.lastId.getD 0) hB hS hP
    { fetchItemsQuery with limit := some 125 } [] none
    List.Pairwise.nil (by intro e he; cases he) (fun _ => rfl)
    (by intro c hc; cases hc)
  have hpw : List.Pairwise (fun a b => b.id < a.id)
      (fetchEntries server configs fetchItemsQuery true 125).2.2 := hsor.1
  cases hL : (fetchEntries server configs fetchItemsQuery true 125).2.2 with
  | nil =>
    constructor
    · intro _
      show (fetchItemsEntries server configs).1.lastId =
        some (configs.lastId.getD 0)
      simp only [fetchItemsEntries]
      rw [hL]
      rfl
    · intro e0 es habs
      exfalso
      have : (fetchItemsEntries server configs).2 = [] := by
        simp only [fetchItemsEntries]
        rw [hL]
      rw [this] at habs
      cases habs
  | cons a t =>
    rw [hL] at hpw
    have hmax : ∀ e ∈ a :: t, e.id ≤ a.id := by
      intro e he
      rcases List.mem_cons.1 he with rfl | h1
      · exact le_refl _
      · exact le_of_lt (List.rel_of_pairwise_cons hpw h1)
    constructor
    · intro habs
      exfalso
      have : (fetchItemsEntries server configs).2 = a :: t := by
        simp only [fetchItemsEntries]
        rw [hL]
      rw [this] at habs
      cases habs
    · intro e0 es heq
      have h2 : (fetchItemsEntries server configs).2 = a :: t := by
        simp only [fetchItemsEntries]
        rw [hL]
      have h1 : (fetchItemsEntries server configs).1.lastId = some a.id := by
        simp only [fetchItemsEntries]
        rw [hL]
      rw [h2] at heq
      injection heq with heq1 heq2
      subst heq1
      refine ⟨h1, ?_⟩
      rw [h2]
      exact hmax

/-- Witness for C2 at the demo dataset: the cursor 2 advances to 5, the
maximum of the two fetched ids. -/
theorem fetchItemsEntries_cursor_max_or_init_witness :
    HonorsBefore (demoServer demoDataset) ∧
    PagesSortedDesc (demoServer demoDataset) ∧
    PagesPositive (demoServer demoDataset) ∧
    ((((fetchItemsEntries (demoServer demoDataset) demoConfigs).2 = []) →
      (fetchItemsEntries (demoServer demoDataset) demoConfigs).1.lastId =
        some (demoConfigs.lastId.getD 0)) ∧
    (∀ e0 es,
      (fetchItemsEntries (demoServer demoDataset) demoConfigs).2 = e0 :: es →
      (fetchItemsEntries (demoServer demoDataset) demoConfigs).1.lastId =
        some e0.id ∧
      ∀ e ∈ (fetchItemsEntries (demoServer demoDataset) demoConfigs).2,
        e.id ≤ e0.id)) :=
  ⟨demoServer_honorsBefore _, demoServer_sorted (by decide),
   demoServer_positive (by decide),
   fetchItemsEntries_cursor_max_or_init (demoServer demoDataset) demoConfigs
     (demoServer_honorsBefore _) (demoServer_sorted (by decide))
     (demoServer_positive (by decide))⟩

/-- Counterexample to C2 as stated: a fetch-new cycle that obtains zero
new entries against a configuration whose cursor was never set does not
leave the cursor unchanged — it writes `some 0` over the unset value. -/
theorem fetchItems_zero_new_initializes_unset_cursor :
    (fetchItemsEntries emptyServer freshConfigs).2 = [] ∧
    freshConfigs.lastId = none ∧
    (fetchItemsEntries emptyServer freshConfigs).1.lastId = some 0 := by
  have h0 : fetchEntriesGo emptyServer 1 125 true 0
      { fetchItemsQuery with limit := some 125 } [] none =
      ({ fetchItemsQuery with limit := some 125, after_entry_id := some 0 },
       []) := by
    rw [fetchEntriesGo]
    rfl
  have h1 : (fetchEntries emptyServer freshConfigs fetchItemsQuery
      true 125).2.2 = ([] : List Entry) := congrArg Prod.snd h0
  refine ⟨?_, rfl, ?_⟩
  · show (fetchItemsEntries emptyServer freshConfigs).2 = []
    simp only [fetchItemsEntries]
    rw [h1]
  · show (fetchItemsEntries emptyServer freshConfigs).1.lastId = some 0
    simp only [fetchItemsEntries]
    rw [h1]
    rfl


/-- The request `markRead` issues for a present `serviceRef`. -/
def markReadRequest (configs : MinifluxConfigs) (ref : String) :
    HttpRequest :=
  { url := baseUrl configs ++ "entries", method := "PUT",
    body := some (entryIdsBody ref "read") }

/-- The request `markUnread` issues for a present `serviceRef`. -/
def markUnreadRequest (configs : MinifluxConfigs) (ref : String) :
    HttpRequest :=
  { url := baseUrl configs ++ "entries", method := "PUT",
    body := some (entryIdsBody ref "unread") }

/-- The request both `star` and `unstar` issue for a present
`serviceRef`. -/
def bookmarkRequest (configs : MinifluxConfigs) (ref : String) :
    HttpRequest :=
  { url := baseUrl configs ++ ("entries/" ++ ref ++ "/bookmark"),
    method := "PUT", body := none }

/-- Claim C7: with a present `serviceRef`, `markRead` returns normally
exactly on a 204 response; any other status, and any transport failure,
raises the opaque `ServiceFailure`. -/
theorem markRead_status_contract (transport : Transport)
    (configs : MinifluxConfigs) (item : RSSItem) (ref : String)
    (h : item.serviceRef = some ref) (hne : ref ≠ "") :
    (transport (markReadRequest configs ref) = TransportResult.success 204 →
      (markRead transport configs item).1 = Except.ok ()) ∧
    (∀ s, transport (markReadRequest configs ref) =
        TransportResult.success s → s ≠ 204 →
      (markRead transport configs item).1 =
        Except.error ServiceError.serviceFailure) ∧
    (transport (markReadRequest configs ref) = TransportResult.failure →
      (markRead transport configs item).1 =
        Except.error ServiceError.serviceFailure) := by
  unfold markRead fetchAPI
  rw [h]
  simp only [Option.getD_some]
  rw [if_neg hne]
  refine ⟨?_, ?_, ?_⟩
  · intro ht
    unfold markReadRequest at ht
    rw [ht]
    simp
  · intro s ht hs
    unfold markReadRequest at ht
    rw [ht]
    simp [hs]
  · intro ht
    unfold markReadRequest at ht
    rw [ht]

/-- Witness for C7: a transport answering 204 lets `markRead` return
normally on the demo item. -/
theorem markRead_status_contract_witness :
    demoRSSItem.serviceRef = some "42" ∧ ("42" : String) ≠ "" ∧
    ((okTransport (markReadRequest demoConfigs "42") =
        TransportResult.success 204 →
      (markRead okTransport demoConfigs demoRSSItem).1 = Except.ok ()) ∧
    (∀ s, okTransport (markReadRequest demoConfigs "42") =
        TransportResult.success s → s ≠ 204 →
      (markRead okTransport demoConfigs demoRSSItem).1 =
        Except.error ServiceError.serviceFailure) ∧
    (okTransport (markReadRequest demoConfigs "42") =
        TransportResult.failure →
      (markRead okTransport demoConfigs demoRSSItem).1 =
        Except.error ServiceError.serviceFailure)) :=
  ⟨rfl, by decide,
   markRead_status_contract okTransport demoConfigs demoRSSItem "42"
     rfl (by decide)⟩

/-- Counterexample to C5 as stated: on a network-level transport failure
the best-effort commands do raise — `fetchAPI` logs the underlying
exception and re-throws the opaque `ServiceFailure`, and `markUnread`,
`star` and `unstar` await it without catching. -/
theorem besteffort_commands_raise_on_network_failure :
    (markUnread failTransport demoConfigs demoRSSItem).1 =
      Except.error ServiceError.serviceFailure ∧
    (star failTransport demoConfigs demoRSSItem).1 =
      Except.error ServiceError.serviceFailure ∧
    (unstar failTransport demoConfigs demoRSSItem).1 =
      Except.error ServiceError.serviceFailure :=
  ⟨rfl, rfl, rfl⟩

/-- Claim C5 (amended): the best-effort commands `markUnread`, `star`
and `unstar` never inspect the response status — every completed
response, whatever its status, returns normally — and they raise exactly
when the transport call itself fails, propagating the opaque
`ServiceFailure` re-thrown by `fetchAPI`. -/
theorem besteffort_commands_error_iff_transport_failure
    (transport : Transport) (configs : MinifluxConfigs) (item : RSSItem)
    (ref : String) (h : item.serviceRef = some ref) (hne : ref ≠ "") :
    (∀ s, transport (markUnreadRequest configs ref) =
        TransportResult.success s →
      (markUnread transport configs item).1 = Except.ok ()) ∧
    (transport (markUnreadRequest configs ref) = TransportResult.failure →
      (markUnread transport configs item).1 =
        Except.error ServiceError.serviceFailure) ∧
    (∀ s, transport (bookmarkRequest configs ref) =
        TransportResult.success s →
      (star transport configs item).1 = Except.ok ()) ∧
    (transport (bookmarkRequest configs ref) = TransportResult.failure →
      (star transport configs item).1 =
        Except.error ServiceError.serviceFailure) ∧
    (∀ s, transport (bookmarkRequest configs ref) =
        TransportResult.success s →
      (unstar transport configs item).1 = Except.ok ()) ∧
    (transport (bookmarkRequest configs ref) = TransportResult.failure →
      (unstar transport configs item).1 =
        Except.error ServiceError.serviceFailure) := by
  unfold markUnread star unstar fetchAPI
  rw [h]
  simp only [Option.getD_some]
  simp only [if_neg hne]
  refine ⟨?_, ?_, ?_, ?_, ?_, ?_⟩
  · intro s ht
    unfold markUnreadRequest at ht
    rw [ht]
  · intro ht
    unfold markUnreadRequest at ht
    rw [ht]
  · intro s ht
    unfold bookmarkRequest at ht
    rw [ht]
  · intro ht
    unfold bookmarkRequest at ht
    rw [ht]
  · intro s ht
    unfold bookmarkRequest at ht
    rw [ht]
  · intro ht
    unfold bookmarkRequest at ht
    rw [ht]

/-- Witness for C5 (amended): on the demo item, a failing transport
makes `markUnread`, `star` and `unstar` yield `ServiceFailure`, while
any completed response yields a normal return. -/
theorem besteffort_commands_error_iff_transport_failure_witness :
    demoRSSItem.serviceRef = some "42" ∧ ("42" : String) ≠ "" ∧
    ((∀ s, failTransport (markUnreadRequest demoConfigs "42") =
        TransportResult.success s →
      (markUnread failTransport demoConfigs demoRSSItem).1 =
        Except.ok ()) ∧
    (failTransport (markUnreadRequest demoConfigs "42") =
        TransportResult.failure →
      (markUnread failTransport demoConfigs demoRSSItem).1 =
        Except.error ServiceError.serviceFailure) ∧
    (∀ s, failTransport (bookmarkRequest demoConfigs "42") =
        TransportResult.success s →
      (star failTransport demoConfigs demoRSSItem).1 = Except.ok ()) ∧
    (failTransport (bookmarkRequest demoConfigs "42") =
        TransportResult.failure →
      (star failTransport demoConfigs demoRSSItem).1 =
        Except.error ServiceError.serviceFailure) ∧
    (∀ s, failTransport (bookmarkRequest demoConfigs "42") =
        TransportResult.success s →
      (unstar failTransport demoConfigs demoRSSItem).1 = Except.ok ()) ∧
    (failTransport (bookmarkRequest demoConfigs "42") =
        TransportResult.failure →
      (unstar failTransport demoConfigs demoRSSItem).1 =
        Except.error ServiceError.serviceFailure)) :=
  ⟨rfl, by decide,
   besteffort_commands_error_iff_transport_failure failTransport
     demoConfigs demoRSSItem "42" rfl (by decide)⟩

/-- An item never synced to the remote service: no `serviceRef`. -/
def unsyncedItem : RSSItem :=
  { demoRSSItem with serviceRef := none }

/-- Claim C8: with an absent `serviceRef`, each item-addressed command
is a no-op — it returns normally and issues no request (and, being pure
in the configuration, changes no state). -/
theorem commands_noop_without_serviceRef (transport : Transport)
    (configs : MinifluxConfigs) (item : RSSItem)
    (h : item.serviceRef = none) :
    markRead transport configs item = (Except.ok (), []) ∧
    markUnread transport configs item = (Except.ok (), []) ∧
    star transport configs item = (Except.ok (), []) ∧
    unstar transport configs item = (Except.ok (), []) := by
  unfold markRead markUnread star unstar
  rw [h]
  simp

/-- Witness for C8: the four commands on an item with no `serviceRef`
issue nothing and succeed, even over a failing transport. -/
theorem commands_noop_without_serviceRef_witness :
    unsyncedItem.serviceRef = none ∧
    (markRead failTransport demoConfigs unsyncedItem = (Except.ok (), []) ∧
    markUnread failTransport demoConfigs unsyncedItem =
      (Except.ok (), []) ∧
    star failTransport demoConfigs unsyncedItem = (Except.ok (), []) ∧
    unstar failTransport demoConfigs unsyncedItem = (Except.ok (), [])) :=
  ⟨rfl,
   commands_noop_without_serviceRef failTransport demoConfigs
     unsyncedItem rfl⟩

/-- Claim C10: `star` and `unstar` are extensionally equal — for every
transport, configuration and item they produce the same outcome and the
same traffic, and with a present `serviceRef` that traffic is the single
bodiless PUT to `entries/{serviceRef}/bookmark`. -/
theorem star_unstar_same_request (transport : Transport)
    (configs : MinifluxConfigs) (item : RSSItem) :
    star transport configs item = unstar transport configs item ∧
    (∀ ref, item.serviceRef = some ref → ref ≠ "" →
      (star transport configs item).2 = [bookmarkRequest configs ref]) := by
  constructor
  · rfl
  · intro ref h hne
    unfold star fetchAPI
    rw [h]
    simp only [Option.getD_some]
    rw [if_neg hne]
    cases ht : transport (bookmarkRequest configs ref) with
    | success s =>
      unfold bookmarkRequest at ht
      rw [ht]
      rfl
    | failure =>
      unfold bookmarkRequest at ht
      rw [ht]
      rfl

/-- Witness for C10: on the demo item the two commands coincide and the
issued request is the bookmark PUT. -/
theorem star_unstar_same_request_witness :
    demoRSSItem.serviceRef = some "42" ∧ ("42" : String) ≠ "" ∧
    (star okTransport demoConfigs demoRSSItem =
      unstar okTransport demoConfigs demoRSSItem ∧
    (star okTransport demoConfigs demoRSSItem).2 =
      [bookmarkRequest demoConfigs "42"]) :=
  ⟨rfl, by decide,
   (star_unstar_same_request okTransport demoConfigs demoRSSItem).1,
   (star_unstar_same_request okTransport demoConfigs demoRSSItem).2
     "42" rfl (by decide)⟩


/-- Membership in the fire-and-forget command list built at miniflux.ts
lines 243-251, for arbitrary values of the two change conditions. -/
theorem ruleCommands_spec (c1 c2 : Bool) (p : RSSItem) :
    (Command.markRead p ∈
        ((if c1 then [Command.markRead p] else []) ++
         (if c2 then [Command.markUnread p] else [])) ↔ c1 = true) ∧
    (Command.markUnread p ∈
        ((if c1 then [Command.markRead p] else []) ++
         (if c2 then [Command.markUnread p] else [])) ↔ c2 = true) ∧
    (∀ i, Command.star i ∉
        ((if c1 then [Command.markRead p] else []) ++
         (if c2 then [Command.markUnread p] else []))) ∧
    (∀ i, Command.unstar i ∉
        ((if c1 then [Command.markRead p] else []) ++
         (if c2 then [Command.markUnread p] else []))) := by
  cases c1 <;> cases c2 <;> simp

/-- Claim C4 (amended): when a source's rules change the mapped item's
read flag — in either direction — the engine dispatches the `markRead`
hook; when they change the starred flag — in either direction — it
dispatches the `markUnread` hook; no `star` or `unstar` command is ever
dispatched from rule application. -/
theorem mapEntry_rule_commands (hD : String → String)
    (eT : String → String → Option String) (source : RSSSource)
    (rules : RSSItem → RSSItem) (entry : Entry)
    (hr : source.rules = some rules) :
    (Command.markRead (mapEntry hD eT source entry).1 ∈
        (mapEntry hD eT source entry).2 ↔
      ((entry.status == "read") ≠ (mapEntry hD eT source entry).1.hasRead)) ∧
    (Command.markUnread (mapEntry hD eT source entry).1 ∈
        (mapEntry hD eT source entry).2 ↔
      (entry.starred ≠ (mapEntry hD eT source entry).1.starred)) ∧
    (∀ i, Command.star i ∉ (mapEntry hD eT source entry).2) ∧
    (∀ i, Command.unstar i ∉ (mapEntry hD eT source entry).2) := by
  obtain ⟨sid, surl, sname, sref, rl⟩ := source
  have hr2 : rl = some rules := hr
  subst hr2
  have hs := ruleCommands_spec
    ((entry.status == "read") !=
      (mapEntry hD eT ⟨sid, surl, sname, sref, some rules⟩ entry).1.hasRead)
    (entry.starred !=
      (mapEntry hD eT ⟨sid, surl, sname, sref, some rules⟩ entry).1.starred)
    ((mapEntry hD eT ⟨sid, surl, sname, sref, some rules⟩ entry).1)
  exact ⟨hs.1.trans bne_iff_ne, hs.2.1.trans bne_iff_ne,
    hs.2.2.1, hs.2.2.2⟩

/-- A rule whose net effect clears the starred flag. -/
def starClearRule : RSSItem → RSSItem := fun it => { it with starred := false }

/-- A source carrying `starClearRule`. -/
def ruleSource : RSSSource :=
  { sid := 7, url := "https://site.example/feed", name := "demo",
    serviceRef := some "1", rules := some starClearRule }

/-- A remote entry reported as starred. -/
def starredEntry : Entry :=
  { demoEntry 9 with starred := true }

/-- Counterexample to C4 as stated: on an entry whose rules clear the
starred flag, the engine dispatches `markUnread` — the whole command
list is exactly that one command, so no star or unstar command is
issued. -/
theorem rule_star_change_issues_markUnread :
    starredEntry.starred = true ∧
    (mapEntry (fun s => s) (fun _ _ => none)
        ruleSource starredEntry).1.starred = false ∧
    (mapEntry (fun s => s) (fun _ _ => none) ruleSource starredEntry).2 =
      [Command.markUnread
        (mapEntry (fun s => s) (fun _ _ => none) ruleSource starredEntry).1] :=
  ⟨rfl, rfl, rfl⟩

/-- Witness for C4 (amended) at the starred demo entry. -/
theorem mapEntry_rule_commands_witness :
    ruleSource.rules = some starClearRule ∧
    ((Command.markRead
        (mapEntry (fun s => s) (fun _ _ => none) ruleSource starredEntry).1 ∈
        (mapEntry (fun s => s) (fun _ _ => none) ruleSource starredEntry).2 ↔
      ((starredEntry.status == "read") ≠
        (mapEntry (fun s => s) (fun _ _ => none)
          ruleSource starredEntry).1.hasRead)) ∧
    (Command.markUnread
        (mapEntry (fun s => s) (fun _ _ => none) ruleSource starredEntry).1 ∈
        (mapEntry (fun s => s) (fun _ _ => none) ruleSource starredEntry).2 ↔
      (starredEntry.starred ≠
        (mapEntry (fun s => s) (fun _ _ => none)
          ruleSource starredEntry).1.starred)) ∧
    (∀ i, Command.star i ∉
      (mapEntry (fun s => s) (fun _ _ => none) ruleSource starredEntry).2) ∧
    (∀ i, Command.unstar i ∉
      (mapEntry (fun s => s) (fun _ _ => none) ruleSource starredEntry).2)) :=
  ⟨rfl,
   mapEntry_rule_commands (fun s => s) (fun _ _ => none) ruleSource
     starClearRule starredEntry rfl⟩

/-- Claim C9: with a date boundary and `before = true`, `markAllRead`
issues exactly one bulk PUT to `entries`, and the id list in its body
consists exactly of the `serviceRef`s of stored rows that belong to the
given sources, are unread, have a non-null `serviceRef`, and have date
at or before the boundary. -/
theorem markAllRead_date_boundary_refs (transport : Transport)
    (configs : MinifluxConfigs) (dbItems : List DBItem)
    (sources : Nat → Option RSSSource) (sids : List Nat) (d : Int) :
    (markAllRead transport configs dbItems sources sids (some d) true).2 =
      [{ url := baseUrl configs ++ "entries", method := "PUT",
         body := some (entryIdsBody
           (String.intercalate ","
             (markAllReadQueryRefs dbItems sids d true)) "read") }] ∧
    (∀ ref, ref ∈ markAllReadQueryRefs dbItems sids d true ↔
      ∃ row ∈ dbItems, row.serviceRef = some ref ∧ row.source ∈ sids ∧
        row.hasRead = false ∧ row.date ≤ d) := by
  constructor
  · simp only [markAllRead, fetchAPI]
    cases ht : transport
        { url := baseUrl configs ++ "entries", method := "PUT",
          body := some (entryIdsBody
            (String.intercalate ","
              (markAllReadQueryRefs dbItems sids d true)) "read") } with
    | success s => rfl
    | failure => rfl
  · intro ref
    unfold markAllReadQueryRefs
    simp only [List.mem_map, List.mem_filter, Bool.and_eq_true,
      decide_eq_true_eq, beq_iff_eq, if_true, List.elem_iff]
    constructor
    · rintro ⟨row, ⟨hmem, ⟨⟨⟨hin, hread⟩, hsome⟩, hdate⟩⟩, hrefeq⟩
      rcases Option.isSome_iff_exists.1 hsome with ⟨v, hv⟩
      refine ⟨row, hmem, ?_, hin, hread, hdate⟩
      rw [hv]
      rw [hv] at hrefeq
      simp only [Option.getD_some] at hrefeq
      rw [hrefeq]
    · rintro ⟨row, hmem, hsref, hin, hread, hdate⟩
      refine ⟨row, ⟨hmem, ⟨⟨⟨hin, hread⟩, ?_⟩, hdate⟩⟩, ?_⟩
      · rw [hsref]
        rfl
      · rw [hsref]
        rfl

/-- A stored row: unread, synced, dated before the boundary. -/
def demoRow : DBItem :=
  { source := 7, hasRead := false, serviceRef := some "42", date := 3 }

/-- Witness for C9 on a one-row store with boundary 5. -/
theorem markAllRead_date_boundary_refs_witness :
    (markAllRead okTransport demoConfigs [demoRow] (fun _ => none) [7]
        (some 5) true).2 =
      [{ url := baseUrl demoConfigs ++ "entries", method := "PUT",
         body := some (entryIdsBody
           (String.intercalate ","
             (markAllReadQueryRefs [demoRow] [7] 5 true)) "read") }] ∧
    (∀ ref, ref ∈ markAllReadQueryRefs [demoRow] [7] 5 true ↔
      ∃ row ∈ [demoRow], row.serviceRef = some ref ∧ row.source ∈ [7] ∧
        row.hasRead = false ∧ row.date ≤ 5) :=
  markAllRead_date_boundary_refs okTransport demoConfigs [demoRow]
    (fun _ => none) [7] 5

end Miniflux
